import Mathlib

/-!
Verification of the miden-amm pricing engine and note-polling helper.

The definitions below are a shallow embedding of:
  * `get_amount_y_out` and `get_amount_y_out_alternative`
    from `src/tests/amm_formula_test.rs` (u64 arithmetic modelled as `Nat`
    with explicit `2^64` bounds; a Rust panic — `expect` on a failed
    checked operation, or debug-mode overflow of the plain `dx + y`
    addition — is modelled as `Option.none`);
  * the polling loop of `wait_for_notes` from `src/src/common.rs`
    (the per-poll count of consumable notes is abstracted as an
    observation sequence `obs : Nat → Nat`; the loop is unfolded with
    explicit fuel so that termination becomes expressible).
-/

namespace MidenAmm

/-- Modulus of Rust `u64`: `2^64`. -/
def U64_MOD : Nat := 18446744073709551616

/-- Fixed-point scaling constant `BASE: u64 = 100000` from
`src/tests/amm_formula_test.rs`. -/
def BASE : Nat := 100000

/-- Rust `u64::checked_mul`: `some` of the product when it fits in 64 bits,
`none` on overflow. -/
def checked_mul (a b : Nat) : Option Nat :=
  if a * b < U64_MOD then some (a * b) else none

/-- Rust `u64::checked_add`: `some` of the sum when it fits in 64 bits,
`none` on overflow. -/
def checked_add (a b : Nat) : Option Nat :=
  if a + b < U64_MOD then some (a + b) else none

/-- Embedding of `get_amount_y_out(_x: u64, y: u64, dx: u64) -> u64`
(`src/tests/amm_formula_test.rs`, lines 14-29).

`none` models a panic: either the debug-mode overflow of the unchecked
`dx + y` in the zero test, or a failed `expect` on the checked
multiplication chain `dx.checked_mul(y).and_then(|r| r.checked_mul(BASE))`
or on `dx.checked_add(y)`. The first parameter `x` (pool X reserve) is
accepted but never used, exactly as in the source. -/
def get_amount_y_out (_x y dx : Nat) : Option Nat :=
  if U64_MOD ≤ dx + y then none
  else if dx + y = 0 then some 0
  else
    match checked_mul dx y with
    | none => none
    | some p =>
      match checked_mul p BASE with
      | none => none
      | some numerator =>
        match checked_add dx y with
        | none => none
        | some denominator => some (numerator / denominator)

/-- Embedding of `get_amount_y_out_alternative(_x: u64, y: u64, dx: u64) -> u64`
(`src/tests/amm_formula_test.rs`, lines 34-50): identical to
`get_amount_y_out` except that the final result is divided by `BASE`
once more (`result / BASE`). -/
def get_amount_y_out_alternative (_x y dx : Nat) : Option Nat :=
  if U64_MOD ≤ dx + y then none
  else if dx + y = 0 then some 0
  else
    match checked_mul dx y with
    | none => none
    | some p =>
      match checked_mul p BASE with
      | none => none
      | some numerator =>
        match checked_add dx y with
        | none => none
        | some denominator => some (numerator / denominator / BASE)

/-- Fuel-indexed unfolding of the polling loop in `wait_for_notes`
(`src/src/common.rs`, lines 169-188). The source loop is
`loop { sync; notes = get_consumable_notes(..); if notes.len() >= expected { break }; sleep(3s) }`;
`obs i` abstracts the number of consumable notes observed at the i-th
poll of an error-free execution. The result is `some ()` when the loop
exits (its only exit: enough notes observed) within `fuel` iterations,
and `none` when after `fuel` iterations the loop is still running.
The source has no other exit: no retry budget, no timeout error. -/
def wait_for_notes_loop (obs : Nat → Nat) (expected : Nat) : Nat → Nat → Option Unit
  | _, 0 => none
  | i, Nat.succ fuel =>
    if expected ≤ obs i then some () else wait_for_notes_loop obs expected (i + 1) fuel

/-- Termination predicate for the polling loop of `wait_for_notes`:
some finite number of iterations suffices for the loop to exit. -/
def wait_for_notes_terminates (obs : Nat → Nat) (expected : Nat) : Prop :=
  ∃ fuel, wait_for_notes_loop obs expected 0 fuel = some ()

/-- The exact-rational quote formula over unbounded integers, for stating
refinement claims: `floor (dx * y * BASE / (dx + y))`. -/
def quote_spec (y dx : Nat) : Nat :=
  dx * y * BASE / (dx + y)

end MidenAmm

namespace MidenAmm

/-! Helper lemmas about the embedded operations. -/

theorem checked_mul_eq_some {a b : Nat} (h : a * b < U64_MOD) :
    checked_mul a b = some (a * b) := by
  simp [checked_mul, h]

theorem checked_mul_eq_none {a b : Nat} (h : U64_MOD ≤ a * b) :
    checked_mul a b = none := by
  simp [checked_mul, Nat.not_lt.2 h]

theorem checked_add_eq_some {a b : Nat} (h : a + b < U64_MOD) :
    checked_add a b = some (a + b) := by
  simp [checked_add, h]

/-- Closed-form case analysis of `get_amount_y_out`. -/
theorem get_amount_y_out_unfold (x y dx : Nat) :
    get_amount_y_out x y dx =
      if U64_MOD ≤ dx + y then none
      else if dx + y = 0 then some 0
      else if dx * y < U64_MOD ∧ dx * y * BASE < U64_MOD then
        some (dx * y * BASE / (dx + y))
      else none := by
  unfold get_amount_y_out
  by_cases h1 : U64_MOD ≤ dx + y
  · simp [h1]
  by_cases h2 : dx + y = 0
  · simp [h1, h2]
  by_cases h3 : dx * y < U64_MOD
  · by_cases h4 : dx * y * BASE < U64_MOD
    · simp [h1, h2, h3, h4, checked_mul_eq_some, checked_add_eq_some,
        Nat.not_le.mp h1]
    · simp [h1, h2, h3, h4, checked_mul_eq_some h3,
        checked_mul_eq_none (Nat.not_lt.mp h4)]
  · simp [h1, h2, h3, checked_mul_eq_none (Nat.not_lt.mp h3)]

/-- Closed-form case analysis of `get_amount_y_out_alternative`. -/
theorem get_amount_y_out_alternative_unfold (x y dx : Nat) :
    get_amount_y_out_alternative x y dx =
      if U64_MOD ≤ dx + y then none
      else if dx + y = 0 then some 0
      else if dx * y < U64_MOD ∧ dx * y * BASE < U64_MOD then
        some (dx * y * BASE / (dx + y) / BASE)
      else none := by
  unfold get_amount_y_out_alternative
  by_cases h1 : U64_MOD ≤ dx + y
  · simp [h1]
  by_cases h2 : dx + y = 0
  · simp [h1, h2]
  by_cases h3 : dx * y < U64_MOD
  · by_cases h4 : dx * y * BASE < U64_MOD
    · simp [h1, h2, h3, h4, checked_mul_eq_some, checked_add_eq_some,
        Nat.not_le.mp h1]
    · simp [h1, h2, h3, h4, checked_mul_eq_some h3,
        checked_mul_eq_none (Nat.not_lt.mp h4)]
  · simp [h1, h2, h3, checked_mul_eq_none (Nat.not_lt.mp h3)]

/-- Characterization of `get_amount_y_out` on the non-degenerate,
non-overflowing path. -/
theorem get_amount_y_out_eq (x y dx : Nat) (hsum : dx + y < U64_MOD)
    (hpos : 0 < dx + y) (hmul : dx * y * BASE < U64_MOD) :
    get_amount_y_out x y dx = some (dx * y * BASE / (dx + y)) := by
  have hp : dx * y < U64_MOD := by
    calc dx * y ≤ dx * y * BASE := Nat.le_mul_of_pos_right _ (by decide)
    _ < U64_MOD := hmul
  rw [get_amount_y_out_unfold, if_neg (by omega), if_neg (by omega),
    if_pos ⟨hp, hmul⟩]

/-- Inversion: whenever `get_amount_y_out` returns a value, that value is
the floor-division formula (in the degenerate `dx + y = 0` branch both
sides are `0`, since `0 / 0 = 0` in `Nat`). -/
theorem get_amount_y_out_some_val {x y dx r : Nat}
    (h : get_amount_y_out x y dx = some r) :
    r = dx * y * BASE / (dx + y) := by
  rw [get_amount_y_out_unfold] at h
  split at h
  · exact absurd h (by simp)
  split at h
  · next h1 h2 =>
    have hdx : dx = 0 := by omega
    simp only [Option.some.injEq] at h
    subst hdx
    simpa using h.symm
  · split at h
    · simp only [Option.some.injEq] at h
      exact h.symm
    · exact absurd h (by simp)

/-- The alternative variant is pointwise the main quote with one further
floor division by `BASE`. -/
theorem get_amount_y_out_alternative_eq_map (x y dx : Nat) :
    get_amount_y_out_alternative x y dx =
      Option.map (fun r => r / BASE) (get_amount_y_out x y dx) := by
  rw [get_amount_y_out_unfold, get_amount_y_out_alternative_unfold]
  split
  · rfl
  split
  · simp
  split
  · simp
  · rfl

/-- Floor division is monotone across different denominators once the
cross-multiplied inequality holds. -/
theorem div_le_div_cross {a b c d : Nat} (hc : 0 < c) (hd : 0 < d)
    (h : a * d ≤ b * c) : a / c ≤ b / d := by
  rw [Nat.le_div_iff_mul_le hd]
  have h1 : a / c * d * c ≤ a * d := by
    calc a / c * d * c = a / c * c * d := by ring
    _ ≤ a * d := Nat.mul_le_mul_right d (Nat.div_mul_le_self a c)
  have h2 : a / c * d ≤ a * d / c := (Nat.le_div_iff_mul_le hc).2 h1
  have h3 : a * d / c ≤ b * c / c := Nat.div_le_div_right h
  have h4 : b * c / c = b := Nat.mul_div_cancel _ hc
  omega

/-- The pure quote formula is non-decreasing in the input amount. -/
theorem quote_formula_mono (y dx1 dx2 : Nat) (h : dx1 ≤ dx2) :
    dx1 * y * BASE / (dx1 + y) ≤ dx2 * y * BASE / (dx2 + y) := by
  by_cases h0 : dx1 + y = 0
  · have : dx1 = 0 := by omega
    subst this
    simp
  · have hc : 0 < dx1 + y := Nat.pos_of_ne_zero h0
    have hd : 0 < dx2 + y := by omega
    apply div_le_div_cross hc hd
    have h1 : dx1 * y * BASE * y ≤ dx2 * y * BASE * y :=
      Nat.mul_le_mul_right _ (Nat.mul_le_mul_right _ (Nat.mul_le_mul_right _ h))
    calc dx1 * y * BASE * (dx2 + y) = dx2 * y * BASE * dx1 + dx1 * y * BASE * y := by
          ring
    _ ≤ dx2 * y * BASE * dx1 + dx2 * y * BASE * y := Nat.add_le_add_left h1 _
    _ = dx2 * y * BASE * (dx1 + y) := by ring

/-! Claim theorems. -/

/-- Claim C1, counterexample: at reserve_in = 1000, reserve_out = 2^32,
amount_in = 2^32 — all three in u64 range, with amount_in + reserve_out
positive — `get_amount_y_out` panics on the intermediate overflow of
`dx * y` (modelled as `none`) instead of returning the exact floor value,
so the claim as stated over all u64 inputs fails. -/
theorem quote_exact_counterexample :
    4294967296 < U64_MOD ∧ 0 < 4294967296 + 4294967296 ∧
      get_amount_y_out 1000 4294967296 4294967296 ≠
        some (4294967296 * 4294967296 * BASE / (4294967296 + 4294967296)) := by
  refine ⟨by decide, by decide, ?_⟩
  decide

/-- Claim C1, amended: for all u64-range reserve_in, reserve_out and
amount_in with amount_in + reserve_out > 0 and no intermediate overflow
(amount_in * reserve_out * BASE < 2^64), `get_amount_y_out` returns
exactly floor(amount_in * reserve_out * BASE / (amount_in + reserve_out))
computed over unbounded integers, with BASE = 100000. -/
theorem quote_exact_no_overflow (x y dx : Nat)
    (hy : y < U64_MOD) (hdx : dx < U64_MOD)
    (hpos : 0 < dx + y) (hov : dx * y * BASE < U64_MOD) :
    get_amount_y_out x y dx = some (quote_spec y dx) := by
  have hsum : dx + y < U64_MOD := by
    rcases Nat.eq_zero_or_pos dx with h | hdx1
    · subst h
      simpa using hy
    rcases Nat.eq_zero_or_pos y with h | hy1
    · subst h
      simpa using hdx
    have h1 : 1 ≤ dx * y := Nat.mul_pos hdx1 hy1
    have hle : dx + y ≤ dx * y + 1 := by
      rcases Nat.exists_eq_add_of_le hdx1 with ⟨a, ha⟩
      rcases Nat.exists_eq_add_of_le hy1 with ⟨b, hb⟩
      subst ha
      subst hb
      calc (1 + a) + (1 + b) = a + b + 2 := by ring
      _ ≤ a * b + (a + b + 2) := Nat.le_add_left _ _
      _ = (1 + a) * (1 + b) + 1 := by ring
    calc dx + y ≤ dx * y + 1 := hle
    _ ≤ dx * y + dx * y := Nat.add_le_add_left h1 _
    _ = dx * y * 2 := by ring
    _ ≤ dx * y * BASE := Nat.mul_le_mul (Nat.le_refl _) (by decide)
    _ < U64_MOD := hov
  exact get_amount_y_out_eq x y dx hsum hpos hov

/-- Witness for `quote_exact_no_overflow` at reserve_out = 2000,
amount_in = 100. -/
theorem quote_exact_no_overflow_witness :
    get_amount_y_out 1000 2000 100 = some (quote_spec 2000 100) :=
  quote_exact_no_overflow 1000 2000 100 (by decide) (by decide) (by decide)
    (by decide)

/-- Claim C2: whenever an intermediate multiplication overflows u64
(`dx * y`, or `(dx * y) * BASE`), `get_amount_y_out` aborts — the failed
`expect` panic, modelled as `none` — and never returns a truncated or
wrapped value. -/
theorem quote_aborts_on_overflow (x y dx : Nat)
    (hy : y < U64_MOD) (hdx : dx < U64_MOD)
    (hov : U64_MOD ≤ dx * y ∨ U64_MOD ≤ dx * y * BASE) :
    get_amount_y_out x y dx = none := by
  rw [get_amount_y_out_unfold]
  by_cases h1 : U64_MOD ≤ dx + y
  · rw [if_pos h1]
  rw [if_neg h1]
  have h2 : ¬ dx + y = 0 := by
    intro h
    have hdx0 : dx = 0 := by omega
    subst hdx0
    simp [U64_MOD] at hov
  rw [if_neg h2, if_neg ?hcond]
  case hcond =>
    intro hcon
    rcases hov with h | h
    · exact absurd hcon.1 (Nat.not_lt.2 h)
    · exact absurd hcon.2 (Nat.not_lt.2 h)

/-- Witness for `quote_aborts_on_overflow` at reserve_out = amount_in =
2^32, where `dx * y` = 2^64 overflows. -/
theorem quote_aborts_on_overflow_witness :
    get_amount_y_out 7 4294967296 4294967296 = none :=
  quote_aborts_on_overflow 7 4294967296 4294967296 (by decide) (by decide)
    (Or.inl (by decide))

/-- Claim C3, code-bug evidence: on an execution where the expected notes
never become consumable (zero consumable notes at every poll, expected
count 1), the polling loop of `wait_for_notes` is still running after
every finite number of iterations — it never terminates, so it never
surfaces any timeout error, contradicting the required bounded-polling
behavior with a `VisibilityTimeout` failure. -/
theorem wait_for_notes_unbounded_on_empty :
    (∀ fuel i, wait_for_notes_loop (fun _ => 0) 1 i fuel = none) ∧
      ¬ wait_for_notes_terminates (fun _ => 0) 1 := by
  have key : ∀ fuel i, wait_for_notes_loop (fun _ => 0) 1 i fuel = none := by
    intro fuel
    induction fuel with
    | zero =>
      intro i
      rfl
    | succ n ih =>
      intro i
      unfold wait_for_notes_loop
      rw [if_neg (by simp)]
      exact ih (i + 1)
  refine ⟨key, ?_⟩
  rintro ⟨fuel, hfuel⟩
  rw [key fuel 0] at hfuel
  exact Option.noConfusion hfuel

/-- Claim C4: for fixed reserves, the quote is monotonically non-decreasing
in amount_in on all inputs where the function is defined. -/
theorem quote_monotone_in_amount_in (x y dx1 dx2 r1 r2 : Nat) (h : dx1 ≤ dx2)
    (h1 : get_amount_y_out x y dx1 = some r1)
    (h2 : get_amount_y_out x y dx2 = some r2) : r1 ≤ r2 := by
  rw [get_amount_y_out_some_val h1, get_amount_y_out_some_val h2]
  exact quote_formula_mono y dx1 dx2 h

/-- Witness for `quote_monotone_in_amount_in` at y = 1000, amounts 1 and 2. -/
theorem quote_monotone_in_amount_in_witness : (99900 : Nat) ≤ 199600 :=
  quote_monotone_in_amount_in 1000 1000 1 2 99900 199600 (by decide)
    (by decide) (by decide)

/-- Claim C5: the alternative (unscaled) variant equals the scaled quote
divided by BASE once more, and on defined inputs with positive denominator
it equals floor(dx * y / (dx + y)) — the BASE factor cancels exactly under
nested floor division. -/
theorem quote_alternative_refines (x y dx r : Nat) (hpos : 0 < dx + y)
    (h : get_amount_y_out x y dx = some r) :
    get_amount_y_out_alternative x y dx = some (r / BASE) ∧
      r / BASE = dx * y / (dx + y) := by
  constructor
  · rw [get_amount_y_out_alternative_eq_map, h]
    rfl
  · rw [get_amount_y_out_some_val h, Nat.div_div_eq_div_mul]
    exact Nat.mul_div_mul_right (dx * y) (dx + y) (by decide)

/-- Witness for `quote_alternative_refines` at reserve_out = 2000,
amount_in = 100. -/
theorem quote_alternative_refines_witness :
    get_amount_y_out_alternative 1000 2000 100 = some (9523809 / BASE) ∧
      9523809 / BASE = 100 * 2000 / (100 + 2000) :=
  quote_alternative_refines 1000 2000 100 9523809 (by decide) (by decide)

/-- Claim C6: a zero input amount always quotes zero, including the
degenerate case amount_in + reserve_out = 0, which returns 0 instead of
dividing by zero. -/
theorem quote_zero_input (x y : Nat) (hy : y < U64_MOD) :
    get_amount_y_out x y 0 = some 0 := by
  rw [get_amount_y_out_unfold, if_neg (by omega)]
  by_cases hy0 : 0 + y = 0
  · rw [if_pos hy0]
  · rw [if_neg hy0, if_pos (by constructor <;> simp [U64_MOD])]
    simp

/-- Witness for `quote_zero_input`, covering both the degenerate pool
(reserve_out = 0) and a live pool. -/
theorem quote_zero_input_witness :
    get_amount_y_out 1000 0 0 = some 0 ∧ get_amount_y_out 1000 1000 0 = some 0 :=
  ⟨quote_zero_input 1000 0 (by decide), quote_zero_input 1000 1000 (by decide)⟩

/-- Claim C7: the reserve_in parameter has no influence on the quote — two
runs differing only in reserve_in return identical results. Determinism
and absence of side effects hold by construction: the embedding is a pure
total function, faithful to the side-effect-free source. -/
theorem quote_ignores_reserve_in (x1 x2 y dx : Nat) :
    get_amount_y_out x1 y dx = get_amount_y_out x2 y dx := rfl

/-- Claim C8: the quote never exceeds the scaled output reserve, and the
unscaled variant never exceeds the output reserve itself: whenever both
are defined, the scaled result is at most y * BASE and the unscaled one
at most y. -/
theorem quote_bounded_by_reserve (x y dx r s : Nat)
    (h : get_amount_y_out x y dx = some r)
    (h' : get_amount_y_out_alternative x y dx = some s) :
    r ≤ y * BASE ∧ s ≤ y := by
  have hr : r ≤ y * BASE := by
    rw [get_amount_y_out_some_val h]
    by_cases h0 : dx + y = 0
    · have hdx0 : dx = 0 := by omega
      subst hdx0
      simp
    · have hc : 0 < dx + y := Nat.pos_of_ne_zero h0
      have hle : dx * y * BASE ≤ (dx + y) * (y * BASE) := by
        calc dx * y * BASE ≤ (dx + y) * y * BASE :=
          Nat.mul_le_mul_right _ (Nat.mul_le_mul_right _ (Nat.le_add_right dx y))
        _ = (dx + y) * (y * BASE) := by ring
      calc dx * y * BASE / (dx + y) ≤ (dx + y) * (y * BASE) / (dx + y) :=
        Nat.div_le_div_right hle
      _ = y * BASE := Nat.mul_div_cancel_left _ hc
  refine ⟨hr, ?_⟩
  have hmap := get_amount_y_out_alternative_eq_map x y dx
  rw [h', h] at hmap
  simp only [Option.map_some', Option.some.injEq] at hmap
  rw [hmap]
  calc r / BASE ≤ y * BASE / BASE := Nat.div_le_div_right hr
  _ = y := Nat.mul_div_cancel _ (by decide)

/-- Witness for `quote_bounded_by_reserve` at reserve_out = 2000,
amount_in = 100. -/
theorem quote_bounded_by_reserve_witness :
    (9523809 : Nat) ≤ 2000 * BASE ∧ (95 : Nat) ≤ 2000 :=
  quote_bounded_by_reserve 1000 2000 100 9523809 95 (by decide) (by decide)

/-- Claim C9: on reserve_out = 2000 and amount_in = 100 the scaled quote
returns exactly 9523809, for every value of the unused reserve_in. -/
theorem quote_concrete_basic (x : Nat) :
    get_amount_y_out x 2000 100 = some 9523809 := rfl

/-- Claim C10: on reserve_out = 1000 and amount_in = 1 the scaled quote
returns exactly 99900 and the unscaled (BASE-divided) variant returns
exactly 0, for every value of the unused reserve_in. -/
theorem quote_concrete_precision (x : Nat) :
    get_amount_y_out x 1000 1 = some 99900 ∧
      get_amount_y_out_alternative x 1000 1 = some 0 :=
  ⟨rfl, rfl⟩

end MidenAmm
